import Mathlib

/-!
Verification of the SubManager core (src/main.py).

The program tracks monthly subscriptions in a SQLite table, computes for each
subscription the next billing date and the number of days left before it
(`calculate_next_bill`), decides whether to push a notification
(`check_and_notify`), and serves an annotated, sorted listing with aggregate
totals (`get_subs`).

This file embeds the core shallowly:
* `datetime.date` becomes the `Date` structure with proleptic-Gregorian
  validity; constructing a date (`datetime.date(y, m, d)`, which raises
  `ValueError` on invalid components) becomes `mkDate : ... → Option Date`;
* date comparison is Python's lexicographic comparison of (year, month, day);
* date subtraction `(a - b).days` goes through a rata-die ordinal
  (`Date.toOrdinal`), the count of days since the epoch, as in CPython;
* a Python function that can raise an uncaught exception returns `Option`;
* SQLite REAL prices are modelled as rationals, so that the summed totals can
  be reasoned about exactly;
* the Bark push transport (`requests.get`) is an oracle
  `transport : String → String → Bool` telling whether a given delivery
  succeeds; the `try/except` around it is modelled by branching on the oracle.
-/

/-- Gregorian leap-year test, as used by `datetime.date`. -/
def isLeap (y : Nat) : Bool :=
  y % 4 == 0 && (y % 100 != 0 || y % 400 == 0)

/-- Number of days of month `m` (1–12) of year `y`; months outside 1–12 never
arise behind `mkDate`'s validity check. -/
def daysInMonth (y m : Nat) : Nat :=
  if m = 2 then (if isLeap y then 29 else 28)
  else if m = 4 ∨ m = 6 ∨ m = 9 ∨ m = 11 then 30
  else 31

/-- Days in all full years before year `y` (rata die, day 1 = Jan 1 of year 1),
matching CPython's `_days_before_year`. -/
def daysBeforeYear (y : Nat) : Nat :=
  365 * (y - 1) + (y - 1) / 4 + (y - 1) / 400 - (y - 1) / 100

/-- Days in all full months of year `y` before month `m`, matching CPython's
`_days_before_month`. -/
def daysBeforeMonth (y : Nat) : Nat → Nat
  | 0 => 0
  | m + 1 => if m = 0 then 0 else daysBeforeMonth y m + daysInMonth y m

/-- A calendar date, the shallow embedding of `datetime.date`. -/
structure Date where
  year : Nat
  month : Nat
  day : Nat
deriving Repr, DecidableEq

/-- Validity of a `Date`: exactly the checks `datetime.date(y, m, d)` performs
(`MINYEAR = 1`; the year is left unbounded above). -/
def Date.Valid (d : Date) : Prop :=
  1 ≤ d.year ∧ 1 ≤ d.month ∧ d.month ≤ 12 ∧ 1 ≤ d.day ∧
    d.day ≤ daysInMonth d.year d.month

instance (d : Date) : Decidable d.Valid := by
  unfold Date.Valid; infer_instance

/-- `datetime.date(y, m, day)` where `day` comes from an untrusted integer
column: `some` on a valid date, `none` where Python raises `ValueError`. -/
def mkDate (y m : Nat) (day : Int) : Option Date :=
  if 1 ≤ y ∧ 1 ≤ m ∧ m ≤ 12 ∧ 1 ≤ day ∧ day ≤ (daysInMonth y m : Int) then
    some ⟨y, m, day.toNat⟩
  else
    none

/-- Rata-die ordinal of a date (Python's `date.toordinal`). -/
def Date.toOrdinal (d : Date) : Nat :=
  daysBeforeYear d.year + daysBeforeMonth d.year d.month + d.day

/-- `(a - b).days` of Python date subtraction. -/
def Date.subDays (a b : Date) : Int :=
  (a.toOrdinal : Int) - (b.toOrdinal : Int)

/-- Python's `<=` on dates: lexicographic comparison of (year, month, day). -/
def Date.leb (a b : Date) : Bool :=
  Nat.blt a.year b.year ||
    (Nat.beq a.year b.year &&
      (Nat.blt a.month b.month ||
        (Nat.beq a.month b.month && Nat.ble a.day b.day)))

/-- The `try: this_month_bill = date(year, month, cycle_day) except ValueError:
this_month_bill = date(year, month, 28)` block of `calculate_next_bill`
(src/main.py lines 38–41). -/
def this_month_bill (cycle_day : Int) (today : Date) : Date :=
  match mkDate today.year today.month cycle_day with
  | some d => d
  | none => ⟨today.year, today.month, 28⟩

/-- `calculate_next_bill` (src/main.py lines 36–55), with `today` passed
explicitly.  Returns `none` exactly where the Python function raises an
uncaught `ValueError` (the December branch constructs
`date(year + 1, 1, cycle_day)` with no `try`). -/
def calculate_next_bill (cycle_day : Int) (today : Date) : Option (Date × Int) :=
  if Date.leb today (this_month_bill cycle_day today) then
    some (this_month_bill cycle_day today,
      (this_month_bill cycle_day today).subDays today)
  else if today.month == 12 then
    match mkDate (today.year + 1) 1 cycle_day with
    | some next => some (next, next.subDays today)
    | none => none
  else
    match mkDate today.year (today.month + 1) cycle_day with
    | some next => some (next, next.subDays today)
    | none =>
      some (⟨today.year, today.month + 1, 28⟩,
        Date.subDays ⟨today.year, today.month + 1, 28⟩ today)

/-! ### Calendar arithmetic lemmas -/

theorem daysInMonth_ge_28 (y m : Nat) : 28 ≤ daysInMonth y m := by
  unfold daysInMonth
  split
  · split <;> omega
  · split <;> omega

theorem daysInMonth_le_31 (y m : Nat) : daysInMonth y m ≤ 31 := by
  unfold daysInMonth
  split
  · split <;> omega
  · split <;> omega

theorem daysInMonth_one (y : Nat) : daysInMonth y 1 = 31 := by
  norm_num [daysInMonth]

theorem daysInMonth_twelve (y : Nat) : daysInMonth y 12 = 31 := by
  norm_num [daysInMonth]

theorem daysBeforeMonth_succ (y m : Nat) (h : 1 ≤ m) :
    daysBeforeMonth y (m + 1) = daysBeforeMonth y m + daysInMonth y m := by
  simp only [daysBeforeMonth]
  rw [if_neg (by omega)]

theorem daysBeforeMonth_13 (y : Nat) :
    daysBeforeMonth y 13 = if isLeap y then 366 else 365 := by
  have h12 : daysBeforeMonth y 13 = daysBeforeMonth y 12 + daysInMonth y 12 :=
    daysBeforeMonth_succ y 12 (by omega)
  have h11 := daysBeforeMonth_succ y 11 (by omega)
  have h10 := daysBeforeMonth_succ y 10 (by omega)
  have h9 := daysBeforeMonth_succ y 9 (by omega)
  have h8 := daysBeforeMonth_succ y 8 (by omega)
  have h7 := daysBeforeMonth_succ y 7 (by omega)
  have h6 := daysBeforeMonth_succ y 6 (by omega)
  have h5 := daysBeforeMonth_succ y 5 (by omega)
  have h4 := daysBeforeMonth_succ y 4 (by omega)
  have h3 := daysBeforeMonth_succ y 3 (by omega)
  have h2 := daysBeforeMonth_succ y 2 (by omega)
  have h1 := daysBeforeMonth_succ y 1 (by omega)
  have h0 : daysBeforeMonth y 1 = 0 := rfl
  rw [h12, h11, h10, h9, h8, h7, h6, h5, h4, h3, h2, h1, h0]
  cases hl : isLeap y <;> norm_num [daysInMonth, hl]

theorem isLeap_iff (y : Nat) :
    isLeap y = true ↔ y % 4 = 0 ∧ (y % 100 ≠ 0 ∨ y % 400 = 0) := by
  simp [isLeap]

set_option maxHeartbeats 2000000 in
theorem daysBeforeYear_succ (y : Nat) (h : 1 ≤ y) :
    daysBeforeYear (y + 1) = daysBeforeYear y + daysBeforeMonth y 13 := by
  rw [daysBeforeMonth_13]
  unfold daysBeforeYear
  simp only [Nat.add_sub_cancel]
  cases hl : isLeap y
  · have hp : ¬(y % 4 = 0 ∧ (y % 100 ≠ 0 ∨ y % 400 = 0)) := by
      rw [← isLeap_iff, hl]; simp
    rw [if_neg (by simp)]
    omega
  · have hp : y % 4 = 0 ∧ (y % 100 ≠ 0 ∨ y % 400 = 0) := (isLeap_iff y).mp hl
    rw [if_pos rfl]
    omega

theorem subDays_same_month (y m d1 d2 : Nat) :
    Date.subDays ⟨y, m, d2⟩ ⟨y, m, d1⟩ = (d2 : Int) - d1 := by
  unfold Date.subDays Date.toOrdinal
  push_cast
  ring

theorem subDays_next_month (y m d1 d2 : Nat) (h : 1 ≤ m) :
    Date.subDays ⟨y, m + 1, d2⟩ ⟨y, m, d1⟩ =
      (daysInMonth y m : Int) + d2 - d1 := by
  unfold Date.subDays Date.toOrdinal
  rw [daysBeforeMonth_succ y m h]
  push_cast
  ring

theorem subDays_next_year (y d1 d2 : Nat) (h : 1 ≤ y) :
    Date.subDays ⟨y + 1, 1, d2⟩ ⟨y, 12, d1⟩ = (31 : Int) + d2 - d1 := by
  unfold Date.subDays Date.toOrdinal
  rw [daysBeforeYear_succ y h, daysBeforeMonth_13]
  have h0 : daysBeforeMonth (y + 1) 1 = 0 := rfl
  have h12 : daysBeforeMonth y 13 = daysBeforeMonth y 12 + daysInMonth y 12 :=
    daysBeforeMonth_succ y 12 (by omega)
  rw [h0, ← daysBeforeMonth_13, h12, daysInMonth_twelve]
  push_cast
  ring

theorem of_mkDate_eq_some {y m : Nat} {day : Int} {d : Date}
    (h : mkDate y m day = some d) :
    d.year = y ∧ d.month = m ∧ 1 ≤ d.day ∧ d.day ≤ daysInMonth y m ∧
      (d.day : Int) = day := by
  unfold mkDate at h
  split at h
  · rename_i hc
    cases h
    refine ⟨rfl, rfl, ?_, ?_, ?_⟩ <;> simp <;> omega
  · cases h

theorem mkDate_eq_some (y m : Nat) (day : Int) (h1 : 1 ≤ y) (h2 : 1 ≤ m)
    (h3 : m ≤ 12) (h4 : 1 ≤ day) (h5 : day ≤ (daysInMonth y m : Int)) :
    mkDate y m day = some ⟨y, m, day.toNat⟩ := by
  unfold mkDate
  rw [if_pos ⟨h1, h2, h3, h4, h5⟩]

theorem mkDate_eq_none_of_gt (y m : Nat) (day : Int)
    (h : (daysInMonth y m : Int) < day) : mkDate y m day = none := by
  unfold mkDate
  rw [if_neg (by omega)]

theorem leb_same_ym (y m d1 d2 : Nat) :
    Date.leb ⟨y, m, d1⟩ ⟨y, m, d2⟩ = true ↔ d1 ≤ d2 := by
  simp [Date.leb, Nat.blt_eq, Nat.beq_eq, Nat.ble_eq, lt_self_iff_false]

theorem this_month_bill_eq (cycle_day : Int) (today : Date) :
    ∃ bd, this_month_bill cycle_day today = ⟨today.year, today.month, bd⟩ ∧
      1 ≤ bd ∧ bd ≤ daysInMonth today.year today.month := by
  unfold this_month_bill
  cases h : mkDate today.year today.month cycle_day with
  | none =>
    exact ⟨28, rfl, by omega, daysInMonth_ge_28 _ _⟩
  | some d =>
    obtain ⟨e1, e2, e3, e4, _⟩ := of_mkDate_eq_some h
    refine ⟨d.day, ?_, e3, e4⟩
    cases d
    simp_all

example : calculate_next_bill 15 ⟨2024, 1, 20⟩ = some (⟨2024, 2, 15⟩, 26) := by
  decide

example : calculate_next_bill 31 ⟨2024, 2, 1⟩ = some (⟨2024, 2, 28⟩, 27) := by
  decide

example : calculate_next_bill 5 ⟨2024, 12, 10⟩ = some (⟨2025, 1, 5⟩, 26) := by
  decide

theorem calculate_next_bill_some_nonneg (cycle_day : Int) (today : Date)
    (h1 : 1 ≤ cycle_day) (h2 : cycle_day ≤ 31) (hv : today.Valid) :
    ∃ next dl, calculate_next_bill cycle_day today = some (next, dl) ∧
      0 ≤ dl := by
  obtain ⟨y, m, td⟩ := today
  obtain ⟨hy, hm1, hm2, hd1, hd2⟩ := hv
  obtain ⟨bd, hbill, hbd1, hbd2⟩ := this_month_bill_eq cycle_day ⟨y, m, td⟩
  dsimp only at hy hm1 hm2 hd1 hd2 hbill hbd2
  unfold calculate_next_bill
  rw [hbill]
  cases hle : Date.leb ⟨y, m, td⟩ ⟨y, m, bd⟩ with
  | true =>
    rw [if_pos rfl]
    refine ⟨⟨y, m, bd⟩, _, rfl, ?_⟩
    rw [subDays_same_month]
    have := (leb_same_ym y m td bd).mp hle
    omega
  | false =>
    rw [if_neg (by simp)]
    dsimp only
    by_cases hm12 : m = 12
    · subst hm12
      rw [if_pos (show ((12 : Nat) == 12) = true from rfl)]
      rw [mkDate_eq_some (y + 1) 1 cycle_day (by omega) (by omega) (by omega)
        h1 (by rw [daysInMonth_one]; omega)]
      refine ⟨_, _, rfl, ?_⟩
      rw [subDays_next_year y td cycle_day.toNat hy]
      rw [daysInMonth_twelve] at hd2
      omega
    · rw [if_neg (by simp [hm12])]
      cases hmk : mkDate y (m + 1) cycle_day with
      | some d =>
        obtain ⟨e1, e2, e3, e4, e5⟩ := of_mkDate_eq_some hmk
        obtain ⟨dy, dm, dd⟩ := d
        dsimp only at e1 e2 e3 e4 e5
        subst e1 e2
        refine ⟨_, _, rfl, ?_⟩
        rw [subDays_next_month dy m td dd hm1]
        omega
      | none =>
        refine ⟨_, _, rfl, ?_⟩
        rw [subDays_next_month y m td 28 hm1]
        omega

/-- C1: for every `cycle_day` in [1,31] and every valid `today`,
`calculate_next_bill` returns without error and its `days_left` result is
nonnegative, i.e. the computed next bill date is never earlier than today. -/
theorem calculate_next_bill_total_nonneg (cycle_day : Int) (today : Date)
    (h1 : 1 ≤ cycle_day) (h2 : cycle_day ≤ 31) (hv : today.Valid) :
    ∃ next dl, calculate_next_bill cycle_day today = some (next, dl) ∧
      0 ≤ dl :=
  calculate_next_bill_some_nonneg cycle_day today h1 h2 hv

theorem calculate_next_bill_total_nonneg_witness :
    ∃ next dl, calculate_next_bill 15 ⟨2024, 1, 20⟩ = some (next, dl) ∧
      0 ≤ dl :=
  calculate_next_bill_total_nonneg 15 ⟨2024, 1, 20⟩ (by decide) (by decide)
    (by decide)

/-- C5: when `cycle_day` exceeds the number of days of the current month, the
current-month candidate is clamped to day 28 of that month; in particular
`cycle_day = 31` on 2024-02-01 yields next bill 2024-02-28 with 27 days
left. -/
theorem this_month_bill_clamp (cycle_day : Int) (today : Date)
    (hgt : (daysInMonth today.year today.month : Int) < cycle_day) :
    this_month_bill cycle_day today = ⟨today.year, today.month, 28⟩ ∧
      calculate_next_bill 31 ⟨2024, 2, 1⟩ = some (⟨2024, 2, 28⟩, 27) := by
  constructor
  · unfold this_month_bill
    rw [mkDate_eq_none_of_gt _ _ _ hgt]
  · decide

theorem this_month_bill_clamp_witness :
    this_month_bill 31 ⟨2024, 2, 1⟩ = ⟨2024, 2, 28⟩ ∧
      calculate_next_bill 31 ⟨2024, 2, 1⟩ = some (⟨2024, 2, 28⟩, 27) :=
  this_month_bill_clamp 31 ⟨2024, 2, 1⟩ (by decide)

/-- C9: `calculate_next_bill` does not return on every out-of-range input:
for `cycle_day > 31` and a December `today` later than the 28th, the December
rollover constructs `date(year + 1, 1, cycle_day)` with no clamp, so the call
raises an unhandled `ValueError` (modelled as `none`). -/
theorem calculate_next_bill_december_overflow_raises (cycle_day : Int)
    (today : Date) (hv : today.Valid) (hm : today.month = 12)
    (hd : 28 < today.day) (hc : 31 < cycle_day) :
    calculate_next_bill cycle_day today = none := by
  obtain ⟨y, m, td⟩ := today
  obtain ⟨hy, hm1, hm2, hd1, hd2⟩ := hv
  dsimp only at hy hm1 hm2 hd1 hd2 hm hd
  subst hm
  have hnone : mkDate y 12 cycle_day = none := by
    apply mkDate_eq_none_of_gt
    have := daysInMonth_le_31 y 12
    omega
  unfold calculate_next_bill this_month_bill
  rw [hnone]
  dsimp only
  have hleb : ¬Date.leb ⟨y, 12, td⟩ ⟨y, 12, 28⟩ = true := by
    rw [leb_same_ym]
    omega
  rw [if_neg hleb]
  rw [if_pos (show ((12 : Nat) == 12) = true from rfl)]
  rw [mkDate_eq_none_of_gt (y + 1) 1 cycle_day
    (by rw [daysInMonth_one]; omega)]

theorem calculate_next_bill_december_overflow_raises_witness :
    calculate_next_bill 40 ⟨2023, 12, 30⟩ = none :=
  calculate_next_bill_december_overflow_raises 40 ⟨2023, 12, 30⟩ (by decide)
    (by decide) (by decide) (by decide)

/-- C10: the day-28 clamp applies to any invalid day number, not only
overflow: for `cycle_day ≤ 0` and a `today` no later than the 28th, the
candidate `date(year, month, cycle_day)` raises, the handler substitutes day
28 of the current month, and that clamped date is returned as the next bill
date rather than an error. -/
theorem calculate_next_bill_nonpositive_cycle_day (cycle_day : Int)
    (today : Date) (hv : today.Valid) (hc : cycle_day ≤ 0)
    (hd : today.day ≤ 28) :
    calculate_next_bill cycle_day today =
      some (⟨today.year, today.month, 28⟩, (28 : Int) - today.day) := by
  obtain ⟨y, m, td⟩ := today
  obtain ⟨hy, hm1, hm2, hd1, hd2⟩ := hv
  dsimp only at hy hm1 hm2 hd1 hd2 hd ⊢
  have hnone : mkDate y m cycle_day = none := by
    unfold mkDate
    rw [if_neg (by omega)]
  unfold calculate_next_bill this_month_bill
  rw [hnone]
  dsimp only
  rw [if_pos ((leb_same_ym y m td 28).mpr hd)]
  rw [subDays_same_month]
  norm_num

theorem calculate_next_bill_nonpositive_cycle_day_witness :
    calculate_next_bill 0 ⟨2024, 5, 10⟩ = some (⟨2024, 5, 28⟩, 18) := by
  have h := calculate_next_bill_nonpositive_cycle_day 0 ⟨2024, 5, 10⟩
    (by decide) (by decide) (by decide)
  simpa using h

/-- C4 counterexample: the December rollover applies no day-28 clamp.  With
`cycle_day = 32` on 2024-12-29 the current-month candidate (clamped to
2024-12-28) is earlier than today, and the December branch constructs
`date(2025, 1, 32)` without a handler, so the call fails instead of
returning a clamped 2025-01-28. -/
theorem calculate_next_bill_december_clamp_cex :
    calculate_next_bill 32 ⟨2024, 12, 29⟩ = none := by decide

/-- C4 (amended): when the current-month candidate is earlier than today and
`cycle_day` lies in [1,31], `calculate_next_bill` rolls forward one month: a
December `today` yields `(year + 1, January, cycle_day)` (no clamp is applied
there; none is needed in range), any other month yields
`(year, month + 1, cycle_day)` with the day-28 clamp on overflow; in
particular `cycle_day = 5` on 2024-12-10 yields next bill 2025-01-05. -/
theorem calculate_next_bill_rollover (cycle_day : Int) (today : Date)
    (h1 : 1 ≤ cycle_day) (h2 : cycle_day ≤ 31) (hv : today.Valid)
    (hlt : Date.leb today (this_month_bill cycle_day today) = false) :
    (today.month = 12 →
      ∃ dl, calculate_next_bill cycle_day today =
        some (⟨today.year + 1, 1, cycle_day.toNat⟩, dl)) ∧
    (today.month ≠ 12 →
      (cycle_day ≤ (daysInMonth today.year (today.month + 1) : Int) →
        ∃ dl, calculate_next_bill cycle_day today =
          some (⟨today.year, today.month + 1, cycle_day.toNat⟩, dl)) ∧
      ((daysInMonth today.year (today.month + 1) : Int) < cycle_day →
        ∃ dl, calculate_next_bill cycle_day today =
          some (⟨today.year, today.month + 1, 28⟩, dl))) ∧
    calculate_next_bill 5 ⟨2024, 12, 10⟩ = some (⟨2025, 1, 5⟩, 26) := by
  obtain ⟨y, m, td⟩ := today
  obtain ⟨hy, hm1, hm2, hd1, hd2⟩ := hv
  dsimp only at hy hm1 hm2 hd1 hd2 hlt ⊢
  refine ⟨?_, ?_, by decide⟩
  · intro hm12
    subst hm12
    unfold calculate_next_bill
    rw [if_neg (by simp [hlt])]
    rw [if_pos (show ((12 : Nat) == 12) = true from rfl)]
    rw [mkDate_eq_some (y + 1) 1 cycle_day (by omega) (by omega) (by omega)
      h1 (by rw [daysInMonth_one]; omega)]
    exact ⟨_, rfl⟩
  · intro hm12
    unfold calculate_next_bill
    rw [if_neg (by simp [hlt])]
    rw [if_neg (by simp [hm12])]
    constructor
    · intro hle
      rw [mkDate_eq_some y (m + 1) cycle_day hy (by omega) (by omega) h1 hle]
      exact ⟨_, rfl⟩
    · intro hgt
      rw [mkDate_eq_none_of_gt y (m + 1) cycle_day hgt]
      exact ⟨_, rfl⟩

theorem calculate_next_bill_rollover_witness :
    ((12 : Nat) = 12 →
      ∃ dl, calculate_next_bill 5 ⟨2024, 12, 10⟩ =
        some (⟨2025, 1, 5⟩, dl)) ∧
    ((12 : Nat) ≠ 12 →
      ((5 : Int) ≤ (daysInMonth 2024 13 : Int) →
        ∃ dl, calculate_next_bill 5 ⟨2024, 12, 10⟩ =
          some (⟨2024, 13, 5⟩, dl)) ∧
      ((daysInMonth 2024 13 : Int) < 5 →
        ∃ dl, calculate_next_bill 5 ⟨2024, 12, 10⟩ =
          some (⟨2024, 13, 28⟩, dl))) ∧
    calculate_next_bill 5 ⟨2024, 12, 10⟩ = some (⟨2025, 1, 5⟩, 26) :=
  calculate_next_bill_rollover 5 ⟨2024, 12, 10⟩ (by decide) (by decide)
    (by decide) (by decide)

/-! ### Reminder policy and tick loop -/

/-- The reminder threshold test inlined in `check_and_notify`
(src/main.py line 70): `days_left == 3 or days_left == 0`. -/
def should_notify (days_left : Int) : Bool :=
  days_left == 3 || days_left == 0

/-- The notification title `f"订阅续费提醒：{name}"` (src/main.py line 71). -/
def notify_title (name : String) : String :=
  "订阅续费提醒：" ++ name

/-- The notification body (src/main.py lines 72–74): the generic
"due in N days" text, overwritten by the "due today" text when
`days_left == 0`. -/
def notify_body (name : String) (price : Rat) (days_left : Int) : String :=
  if days_left == 0 then
    "您的 " ++ name ++ " 今天扣款 " ++ toString price ++ " 元！"
  else
    "您的 " ++ name ++ " 将在 " ++ toString days_left ++ " 天后扣款 "
      ++ toString price ++ " 元。"

/-- The notify/no-notify decision of `check_and_notify` for one subscription
(src/main.py lines 70–75): the `(title, body)` pair when the threshold test
fires, `none` otherwise. -/
def notify_decision (name : String) (price : Rat) (days_left : Int) :
    Option (String × String) :=
  if should_notify days_left then
    some (notify_title name, notify_body name price days_left)
  else
    none

/-- One line of `check_and_notify`'s console log: `推送成功` or `推送失败`
(src/main.py lines 79 and 81). -/
inductive PushLog where
  | ok (name : String) : PushLog
  | failed (name : String) : PushLog
deriving Repr, DecidableEq

/-- One subscription's delivery attempt (src/main.py lines 70–81): if the
decision fires, the transport is called exactly once on the Bark URL built
from the title and body; a transport exception is caught and logged, giving
`PushLog.failed`. -/
def attempt_push (transport : String → String → Bool) (name : String)
    (price : Rat) (days_left : Int) : Option PushLog :=
  match notify_decision name price days_left with
  | none => none
  | some (title, body) =>
    if transport title body then some (.ok name) else some (.failed name)

/-- A row of the `subs` table:
`(id, name TEXT, price REAL, cycle_day INTEGER, category TEXT, color TEXT)`. -/
structure SubRow where
  id : Nat
  name : String
  price : Rat
  cycle_day : Int
  category : String
  color : String
deriving Repr, DecidableEq

/-- The per-tick loop of `check_and_notify` (src/main.py lines 66–81) over the
fetched rows, returning the sequence of log lines.  `none` models the only
uncaught exception: a `ValueError` escaping `calculate_next_bill`; transport
failures are caught inside the loop. -/
def check_and_notify (transport : String → String → Bool) (today : Date) :
    List SubRow → Option (List PushLog)
  | [] => some []
  | sub :: rest =>
    match calculate_next_bill sub.cycle_day today with
    | none => none
    | some (_, days_left) =>
      match check_and_notify transport today rest with
      | none => none
      | some log =>
        match attempt_push transport sub.name sub.price days_left with
        | none => some log
        | some entry => some (entry :: log)

/-! ### The listing endpoint -/

/-- One entry of the `subscriptions` list returned by `get_subs`
(src/main.py lines 125–134). -/
structure SubView where
  id : Nat
  name : String
  price : Rat
  cycle_day : Int
  category : String
  color : String
  next_date : Date
  days_left : Int
deriving Repr, DecidableEq

/-- The `summary` object returned by `get_subs` (src/main.py lines 140–144). -/
structure SubsSummary where
  monthly_total : Rat
  yearly_total : Rat
  upcoming : Nat
deriving Repr, DecidableEq

/-- The full response of `get_subs` (src/main.py lines 138–145). -/
structure SubsResponse where
  subscriptions : List SubView
  summary : SubsSummary
deriving Repr, DecidableEq

/-- The accumulation loop of `get_subs` (src/main.py lines 119–134): per row
it computes the next bill, adds the price into the monthly total, counts the
row as upcoming when `days_left <= 7`, and appends the annotated view.
`none` models a `ValueError` escaping `calculate_next_bill` mid-loop. -/
def get_subs_loop (today : Date) :
    List SubRow → Option (List SubView × Rat × Nat)
  | [] => some ([], 0, 0)
  | row :: rest =>
    match calculate_next_bill row.cycle_day today with
    | none => none
    | some (next_date, days_left) =>
      match get_subs_loop today rest with
      | none => none
      | some (views, total_monthly, upcoming) =>
        some (⟨row.id, row.name, row.price, row.cycle_day, row.category,
                row.color, next_date, days_left⟩ :: views,
              row.price + total_monthly,
              (if days_left ≤ 7 then 1 else 0) + upcoming)

/-- `get_subs` (src/main.py lines 107–145), with `today` passed explicitly:
runs the accumulation loop, sorts the views by `days_left` ascending
(`result.sort(key=lambda x: x['days_left'])`), and packages the summary with
`yearly_total = total_monthly * 12`. -/
def get_subs (today : Date) (rows : List SubRow) : Option SubsResponse :=
  match get_subs_loop today rows with
  | none => none
  | some (views, total_monthly, upcoming) =>
    some ⟨views.mergeSort (fun a b => decide (a.days_left ≤ b.days_left)),
          ⟨total_monthly, total_monthly * 12, upcoming⟩⟩

/-- C2: for every subscription and every `days_left`, the reminder check
decides to send a notification iff `days_left == 3` or `days_left == 0`,
with the title/body templates of the source, and the "due today" body used
at 0 is distinct from the "due in N days" body used at 3. -/
theorem notify_decision_thresholds (name : String) (price : Rat)
    (days_left : Int) :
    (notify_decision name price days_left).isSome =
        (days_left == 3 || days_left == 0) ∧
    notify_decision name price 0 =
      some (notify_title name, notify_body name price 0) ∧
    notify_decision name price 3 =
      some (notify_title name, notify_body name price 3) ∧
    notify_body name price 0 ≠ notify_body name price 3 := by
  refine ⟨?_, rfl, rfl, ?_⟩
  · unfold notify_decision should_notify
    cases h : (days_left == 3 || days_left == 0) <;> simp [h]
  · have l1 : ("您的 " : String).length = 3 := rfl
    have l2 : (" 今天扣款 " : String).length = 6 := rfl
    have l3 : (" 元！" : String).length = 3 := rfl
    have l4 : (" 将在 " : String).length = 4 := rfl
    have l5 : (" 天后扣款 " : String).length = 6 := rfl
    have l6 : (" 元。" : String).length = 3 := rfl
    have l7 : (toString (3 : Int)).length = 1 := rfl
    intro heq
    have e0 : notify_body name price 0 =
        "您的 " ++ name ++ " 今天扣款 " ++ toString price ++ " 元！" := rfl
    have e3 : notify_body name price 3 =
        "您的 " ++ name ++ " 将在 " ++ toString (3 : Int) ++ " 天后扣款 "
          ++ toString price ++ " 元。" := rfl
    have hlen := congrArg String.length heq
    rw [e0, e3] at hlen
    simp only [String.length_append] at hlen
    rw [l1, l2, l3, l4, l5, l6, l7] at hlen
    omega

/-- C6: the reminder decision is a deterministic pure function of `days_left`
alone: it coincides with `should_notify days_left` regardless of the
subscription's name and price, and evaluating it twice yields identical
output (there is no hidden state in the embedding). -/
theorem notify_decision_deterministic (n1 : String) (p1 : Rat) (n2 : String)
    (p2 : Rat) (days_left : Int) :
    notify_decision n1 p1 days_left = notify_decision n1 p1 days_left ∧
    (notify_decision n1 p1 days_left).isSome = should_notify days_left ∧
    (notify_decision n1 p1 days_left).isSome =
      (notify_decision n2 p2 days_left).isSome := by
  refine ⟨rfl, ?_, ?_⟩ <;>
    · unfold notify_decision
      cases h : should_notify days_left <;> simp [h]

/-- C7: in the per-tick loop, a transport failure for one subscription is
caught, logged as a failure entry, never retried, and never aborts the loop:
the log is exactly one independent entry per notifying subscription, so every
remaining subscription is still processed and partial success is
reachable. -/
theorem check_and_notify_no_abort (transport : String → String → Bool)
    (today : Date) (subs : List SubRow) (hv : today.Valid)
    (hc : ∀ sub ∈ subs, 1 ≤ sub.cycle_day ∧ sub.cycle_day ≤ 31) :
    check_and_notify transport today subs =
      some (subs.filterMap fun sub =>
        (calculate_next_bill sub.cycle_day today).bind fun r =>
          attempt_push transport sub.name sub.price r.2) := by
  induction subs with
  | nil => rfl
  | cons sub rest ih =>
    obtain ⟨hc1, hc2⟩ := hc sub (List.mem_cons_self sub rest)
    obtain ⟨next, dl, hcb, -⟩ :=
      calculate_next_bill_some_nonneg sub.cycle_day today hc1 hc2 hv
    have hrest := ih fun s hs => hc s (List.mem_cons_of_mem _ hs)
    unfold check_and_notify
    rw [hcb, hrest, List.filterMap_cons, hcb]
    cases hap : attempt_push transport sub.name sub.price dl <;> simp [hap]

theorem check_and_notify_no_abort_witness :
    (check_and_notify (fun t _ => !(t == "订阅续费提醒：A")) ⟨2024, 1, 1⟩
        [⟨1, "A", 10, 4, "video", "blue"⟩, ⟨2, "B", 20, 1, "music", "red"⟩] =
      some ([⟨1, "A", 10, 4, "video", "blue"⟩,
             (⟨2, "B", 20, 1, "music", "red"⟩ : SubRow)].filterMap fun sub =>
        (calculate_next_bill sub.cycle_day ⟨2024, 1, 1⟩).bind fun r =>
          attempt_push (fun t _ => !(t == "订阅续费提醒：A")) sub.name
            sub.price r.2)) ∧
    ([⟨1, "A", 10, 4, "video", "blue"⟩,
      (⟨2, "B", 20, 1, "music", "red"⟩ : SubRow)].filterMap fun sub =>
        (calculate_next_bill sub.cycle_day ⟨2024, 1, 1⟩).bind fun r =>
          attempt_push (fun t _ => !(t == "订阅续费提醒：A")) sub.name
            sub.price r.2) =
      [PushLog.failed "A", PushLog.ok "B"] :=
  ⟨check_and_notify_no_abort (fun t _ => !(t == "订阅续费提醒：A"))
      ⟨2024, 1, 1⟩ _ (by decide) (by decide),
   by decide⟩

theorem get_subs_loop_spec (today : Date) (rows : List SubRow)
    (hv : today.Valid)
    (hc : ∀ r ∈ rows, 1 ≤ r.cycle_day ∧ r.cycle_day ≤ 31) :
    ∃ views total upcoming,
      get_subs_loop today rows = some (views, total, upcoming) ∧
      total = (rows.map SubRow.price).sum ∧
      upcoming = views.countP (fun v => decide (v.days_left ≤ 7)) := by
  induction rows with
  | nil => exact ⟨[], 0, 0, rfl, by simp, by simp⟩
  | cons row rest ih =>
    obtain ⟨h1, h2⟩ := hc row (List.mem_cons_self row rest)
    obtain ⟨next, dl, hcb, -⟩ :=
      calculate_next_bill_some_nonneg row.cycle_day today h1 h2 hv
    obtain ⟨views, total, upcoming, hloop, htot, hupc⟩ :=
      ih fun r hr => hc r (List.mem_cons_of_mem _ hr)
    refine ⟨⟨row.id, row.name, row.price, row.cycle_day, row.category,
      row.color, next, dl⟩ :: views, row.price + total,
      (if dl ≤ 7 then 1 else 0) + upcoming, ?_, ?_, ?_⟩
    · unfold get_subs_loop
      rw [hcb, hloop]
    · rw [htot]
      simp
    · rw [hupc, List.countP_cons]
      by_cases hdl : dl ≤ 7
      · simp [hdl]
        omega
      · simp [hdl]

/-- C3: for every collection of stored subscriptions (valid `cycle_day`) and
valid `today`, the listing endpoint returns, its `upcoming` count equals the
number of returned subscriptions with `days_left <= 7`, and the returned
subscription list is sorted in non-decreasing order of `days_left`. -/
theorem get_subs_upcoming_sorted (today : Date) (rows : List SubRow)
    (hv : today.Valid)
    (hc : ∀ r ∈ rows, 1 ≤ r.cycle_day ∧ r.cycle_day ≤ 31) :
    ∃ res, get_subs today rows = some res ∧
      res.summary.upcoming =
        res.subscriptions.countP (fun v => decide (v.days_left ≤ 7)) ∧
      res.subscriptions.Pairwise (fun a b => a.days_left ≤ b.days_left) := by
  obtain ⟨views, total, upcoming, hloop, -, hupc⟩ :=
    get_subs_loop_spec today rows hv hc
  refine ⟨⟨views.mergeSort (fun a b => decide (a.days_left ≤ b.days_left)),
    ⟨total, total * 12, upcoming⟩⟩, ?_, ?_, ?_⟩
  · unfold get_subs
    rw [hloop]
  · dsimp only
    rw [hupc]
    exact ((List.mergeSort_perm views
      (fun a b => decide (a.days_left ≤ b.days_left))).countP_eq _).symm
  · dsimp only
    have hs : (views.mergeSort
        (fun a b => decide (a.days_left ≤ b.days_left))).Pairwise
        (fun a b => decide (a.days_left ≤ b.days_left) = true) :=
      List.sorted_mergeSort
        (fun a b c hab hbc => by
          simp only [decide_eq_true_eq] at hab hbc ⊢
          omega)
        (fun a b => by
          simp only [Bool.or_eq_true, decide_eq_true_eq]
          omega)
        views
    exact hs.imp fun h => by simpa using h

theorem get_subs_upcoming_sorted_witness :
    ∃ res, get_subs ⟨2024, 1, 1⟩
        [⟨1, "A", 10, 4, "video", "blue"⟩,
         ⟨2, "B", 20, 20, "music", "red"⟩] = some res ∧
      res.summary.upcoming =
        res.subscriptions.countP (fun v => decide (v.days_left ≤ 7)) ∧
      res.subscriptions.Pairwise (fun a b => a.days_left ≤ b.days_left) :=
  get_subs_upcoming_sorted ⟨2024, 1, 1⟩
    [⟨1, "A", 10, 4, "video", "blue"⟩, ⟨2, "B", 20, 20, "music", "red"⟩]
    (by decide) (by decide)

/-- C8: for every collection of stored subscriptions (valid `cycle_day`) and
valid `today`, the summary's `monthly_total` equals the sum of the price
field over all subscriptions — including those with `days_left > 7` — and
`yearly_total` is exactly 12 times `monthly_total`. -/
theorem get_subs_totals (today : Date) (rows : List SubRow)
    (hv : today.Valid)
    (hc : ∀ r ∈ rows, 1 ≤ r.cycle_day ∧ r.cycle_day ≤ 31) :
    ∃ res, get_subs today rows = some res ∧
      res.summary.monthly_total = (rows.map SubRow.price).sum ∧
      res.summary.yearly_total = 12 * res.summary.monthly_total := by
  obtain ⟨views, total, upcoming, hloop, htot, -⟩ :=
    get_subs_loop_spec today rows hv hc
  refine ⟨⟨views.mergeSort (fun a b => decide (a.days_left ≤ b.days_left)),
    ⟨total, total * 12, upcoming⟩⟩, ?_, ?_, ?_⟩
  · unfold get_subs
    rw [hloop]
  · exact htot
  · dsimp only
    ring

theorem get_subs_totals_witness :
    ∃ res, get_subs ⟨2024, 1, 1⟩
        [⟨1, "A", 10, 4, "video", "blue"⟩,
         ⟨2, "B", 20, 20, "music", "red"⟩] = some res ∧
      res.summary.monthly_total =
        ([⟨1, "A", 10, 4, "video", "blue"⟩,
          (⟨2, "B", 20, 20, "music", "red"⟩ : SubRow)].map SubRow.price).sum ∧
      res.summary.yearly_total = 12 * res.summary.monthly_total :=
  get_subs_totals ⟨2024, 1, 1⟩
    [⟨1, "A", 10, 4, "video", "blue"⟩, ⟨2, "B", 20, 20, "music", "red"⟩]
    (by decide) (by decide)
